import Mathlib

/-!
# Verification of the lesson chat widget (`static/chat.js`)

A shallow embedding of the widget's conversation-state machine and its
request/response cycle, followed by proofs about its behaviour.  The DOM is
abstracted to the observable pieces the widget mutates: the log rows, the
input field, the two `disabled` flags, focus, and the panel's open state.
The asynchronous exchange is run to completion for a given network outcome,
which is sound because the `pending` guard forbids interleaved exchanges.
-/

/-- JSON values, as produced by `response.json()`.  Numbers are modelled as
integers; nothing verified here depends on numeric values beyond truthiness. -/
inductive Json where
  | null
  | bool (b : Bool)
  | num  (n : Int)
  | str  (s : String)
  | arr  (elems : List Json)
  | obj  (fields : List (String × Json))

/-- JavaScript truthiness of a JSON value. -/
def Json.truthy : Json → Bool
  | .null   => false
  | .bool b => b
  | .num n  => n != 0
  | .str s  => s != ""
  | .arr _  => true
  | .obj _  => true

/-- Property read `j.k`: `none` models `undefined` (missing field, or a value
with no such property).  Later duplicate keys win, as with `JSON.parse`. -/
def Json.get (j : Json) (k : String) : Option Json :=
  match j with
  | .obj fields => fields.foldl (fun acc p => if p.1 = k then some p.2 else acc) none
  | _ => none

/-- Truthiness of a possibly-undefined value (`undefined` is falsy). -/
def truthyOpt : Option Json → Bool
  | none => false
  | some j => j.truthy

/-- The test `typeof v === "string"`, together with the string itself. -/
def asString : Option Json → Option String
  | some (.str s) => some s
  | _ => none

/-- JavaScript `String.prototype.trim`, modelled structurally over the
character list (whitespace stripped from both ends) so that it evaluates
inside the kernel. -/
def String.jsTrim (s : String) : String :=
  ⟨((s.data.dropWhile Char.isWhitespace).reverse.dropWhile Char.isWhitespace).reverse⟩

/-- One conversation turn `{ role, text }`. -/
structure Turn where
  role : String
  text : String
deriving DecidableEq, Repr

/-- One log row: its role class (`"me"` or `"bot"`), whether the `meta`
class has been added, and its text content. -/
structure Row where
  role : String
  meta : Bool
  text : String
deriving DecidableEq, Repr

/-- The widget's observable state: in-memory history, log rows, the input
field's value, the two `disabled` flags driven by `setPending`, whether the
input is focused, and whether the panel is open. -/
structure WidgetState where
  history       : List Turn
  log           : List Row
  inputValue    : String
  inputDisabled : Bool
  sendDisabled  : Bool
  inputFocused  : Bool
  isOpen        : Bool
deriving DecidableEq, Repr

/-- A request is pending exactly while the send control is disabled; the
submit handler's guard reads `send.disabled`. -/
def WidgetState.pending (st : WidgetState) : Bool :=
  st.sendDisabled

/-- The fixed system turn installed at initialization. -/
def systemTurn : Turn :=
  { role := "system",
    text := "You are a concise, friendly assistant who helps students understand the lesson content. Keep answers focused on the provided materials and give short explanations." }

/-- The state right after the script has set up the widget. -/
def initState : WidgetState :=
  { history := [systemTurn], log := [], inputValue := "",
    inputDisabled := false, sendDisabled := false,
    inputFocused := false, isOpen := false }

def networkErrorText : String := "Network error. Please try again."

def invalidResponseText : String := "Invalid response from server."

def fallbackReplyText : String := "I do not have an answer right now."

/-- The helper `setPending`: set the two `disabled` flags; on clearing, focus the input. -/
def setPending (isPending : Bool) (st : WidgetState) : WidgetState :=
  let st := { st with inputDisabled := isPending, sendDisabled := isPending }
  if !isPending then { st with inputFocused := true } else st

/-- The `payload.error` branch of the detail extraction: it is entered when
`payload.error` is truthy, and yields a suffix only when it is a string. -/
def detailFromError (payload : Json) : String :=
  match asString (payload.get "error") with
  | some s => " (" ++ s ++ ")"
  | none => ""

/-- The `payload.details && payload.details.error` branch.  The truthiness
guard on `details` is absorbed into the property read: a falsy `details`
value is never an object, so the read already yields `none`. -/
def detailFromDetails (payload : Json) : String :=
  match (payload.get "details").bind (fun d => Json.get d "error") with
  | some err =>
    if err.truthy then
      match err with
      | .str s => " (" ++ s ++ ")"
      | _ =>
        match asString (err.get "message") with
        | some m => " (" ++ m ++ ")"
        | none => ""
    else ""
  | none => ""

/-- The tail of the if/else chain once the `message` test has failed. -/
def detailAfterMessage (payload : Json) : String :=
  if truthyOpt (payload.get "error") then detailFromError payload
  else detailFromDetails payload

/-- Detail extraction of the failure branch, mirroring the if/else chain of
the source: `message` (a string with non-empty trim, used trimmed), else the
`error` branch when `payload.error` is truthy, else the `details.error`
branch; a falsy payload contributes nothing. -/
def extractDetail (payload : Json) : String :=
  if payload.truthy then
    match asString (payload.get "message") with
    | some m => if m.jsTrim ≠ "" then " (" ++ m.jsTrim ++ ")" else detailAfterMessage payload
    | none => detailAfterMessage payload
  else ""

/-- How the network round trip resolves, as observed by `requestReply`: the
fetch itself rejects; the body fails to parse as JSON; or a JSON payload
arrives together with the `response.ok` flag. -/
inductive Outcome where
  | transportFailure
  | malformedBody (ok : Bool)
  | parsed (ok : Bool) (payload : Json)

/-- Overwrite the placeholder assistant row — the last row of the log. -/
def setAssistantRow (st : WidgetState) (row : Row) : WidgetState :=
  { st with log := st.log.dropLast ++ [row] }

/-- The handler `requestReply(message)`, run to completion for a given network outcome.
Returns the final state together with the history that was serialized into
the request body. -/
def requestReply (message : String) (outcome : Outcome) (st : WidgetState) :
    WidgetState × List Turn :=
  let meRow : Row := { role := "me", meta := false, text := message }
  let pendingRow : Row := { role := "bot", meta := false, text := "..." }
  let st0 := setPending true
    { st with history := st.history ++ [{ role := "user", text := message }],
              log := st.log ++ [meRow, pendingRow] }
  let sent := st0.history
  match outcome with
  | .transportFailure =>
    (setPending false
      (setAssistantRow st0 { pendingRow with meta := true, text := networkErrorText }), sent)
  | .malformedBody _ =>
    (setPending false
      (setAssistantRow st0 { pendingRow with meta := true, text := invalidResponseText }), sent)
  | .parsed ok payload =>
    let st1 := setPending false st0
    if !ok || !payload.truthy || (asString (payload.get "text")).isNone then
      let failText := "Could not get a reply" ++ extractDetail payload ++ "."
      (setAssistantRow st1 { pendingRow with meta := true, text := failText }, sent)
    else
      let display :=
        let t := ((asString (payload.get "text")).getD "").jsTrim
        if t = "" then fallbackReplyText else t
      let st2 := setAssistantRow st1 { pendingRow with text := display }
      ({ st2 with history := st2.history ++ [{ role := "assistant", text := display }] }, sent)

/-- The form's submit handler, with the exchange it triggers run to
completion.  Returns the new state and, when a request was issued, the
history carried in its body. -/
def onSubmit (outcome : Outcome) (st : WidgetState) : WidgetState × Option (List Turn) :=
  let message := st.inputValue.jsTrim
  if message = "" ∨ st.sendDisabled = true then (st, none)
  else
    let r := requestReply message outcome { st with inputValue := "" }
    (r.1, some r.2)

/-- The toggle button's click handler. -/
def toggleClick (st : WidgetState) : WidgetState :=
  let st := { st with isOpen := !st.isOpen }
  if st.isOpen then { st with inputFocused := true } else st

/-- The states reachable from initialization through user events, with the
network behaving arbitrarily. -/
inductive Reachable : WidgetState → Prop where
  | init : Reachable initState
  | submit (outcome : Outcome) (st : WidgetState) :
      Reachable st → Reachable (onSubmit outcome st).1
  | toggle (st : WidgetState) : Reachable st → Reachable (toggleClick st)

/-- The text of the last row of the log. -/
def lastRowText (st : WidgetState) : Option String :=
  st.log.getLast?.map Row.text

/-- Whether the last row of the log carries the `meta` class. -/
def lastRowMeta (st : WidgetState) : Option Bool :=
  st.log.getLast?.map Row.meta

/-- Texts of the assistant-role entries of a history. -/
def assistantTexts (h : List Turn) : List String :=
  (h.filter (fun t => t.role == "assistant")).map Turn.text

/-- Texts of the non-meta bot rows of the log — the displayed replies. -/
def botDisplayTexts (l : List Row) : List String :=
  (l.filter (fun r => r.role == "bot" && !r.meta)).map Row.text

/-- The string a successful reply displays: the trimmed reply, or the fixed
fallback phrase when trimming leaves nothing. -/
def displayOf (t : String) : String :=
  if t.jsTrim = "" then fallbackReplyText else t.jsTrim

/-! ## The detail suffix as the (amended) specification words it

The spec describes the suffix as an ordered sequence of trials where the
first successful extraction wins.  The amended second trial stops the chain
whenever the top-level error field is truthy: a non-string truthy error
yields no suffix at all rather than falling through to `details.error`. -/

/-- First trial: a top-level message field that is a string whose trimmed
value is non-empty; the suffix uses the trimmed value. -/
def trialMessage (p : Json) : Option String :=
  match asString (p.get "message") with
  | some m => if m.jsTrim ≠ "" then some (" (" ++ m.jsTrim ++ ")") else none
  | none => none

/-- Second trial (amended): when the top-level error field is truthy the
chain stops here — the suffix is the error value when it is a string, and
empty otherwise. -/
def trialError (p : Json) : Option String :=
  if truthyOpt (p.get "error") then
    some (match asString (p.get "error") with
          | some s => " (" ++ s ++ ")"
          | none => "")
  else none

/-- Third trial: a truthy `details.error`, as a string, or as an object
carrying a string message field. -/
def trialDetails (p : Json) : Option String :=
  match (p.get "details").bind (fun d => Json.get d "error") with
  | some (Json.str s) => if s ≠ "" then some (" (" ++ s ++ ")") else none
  | some err =>
    if err.truthy then (asString (err.get "message")).map (fun m => " (" ++ m ++ ")")
    else none
  | none => none

/-- The detail suffix as the amended claim describes it: for a truthy
payload run the trials in order and keep the first result; otherwise, or
when every trial fails, no suffix. -/
def specDetail (p : Json) : String :=
  if p.truthy then
    (((trialMessage p).orElse fun _ => (trialError p).orElse fun _ => trialDetails p).getD "")
  else ""

/-! ## Helper lemmas -/

lemma dropLast_pair {α : Type} (l : List α) (a b : α) :
    (l ++ [a, b]).dropLast = l ++ [a] := by
  rw [show l ++ [a, b] = (l ++ [a]) ++ [b] by simp, List.dropLast_concat]

lemma getLast?_pair {α : Type} (l : List α) (a b : α) :
    (l ++ [a, b]).getLast? = some b := by
  rw [show l ++ [a, b] = (l ++ [a]) ++ [b] by simp, List.getLast?_concat]

lemma truthy_of_get_some (p : Json) (k : String) (v : Json) (h : p.get k = some v) :
    p.truthy = true := by
  cases p <;> simp [Json.get, Json.truthy] at h ⊢

/-- The else-if chain after a failed message test agrees with the chained
trials of the spec. -/
lemma detailAfterMessage_eq (p : Json) :
    detailAfterMessage p = (((trialError p).orElse fun _ => trialDetails p).getD "") := by
  unfold detailAfterMessage trialError detailFromError
  by_cases h : truthyOpt (p.get "error") = true
  · simp [h]
  · simp [Bool.not_eq_true] at h
    simp [h, Option.orElse]
    unfold detailFromDetails trialDetails
    cases herr : (p.get "details").bind (fun d => Json.get d "error") with
    | none => rfl
    | some err =>
      cases err with
      | str s =>
        by_cases hs : s = "" <;> simp [hs, Json.truthy]
      | null => simp [Json.truthy]
      | bool b => cases b <;> simp [Json.truthy, asString, Json.get]
      | num n =>
        by_cases hn : n = 0 <;> simp [hn, Json.truthy, asString, Json.get]
      | arr xs => simp [Json.truthy, asString, Json.get]
      | obj fs =>
        simp [Json.truthy]
        cases hm : asString ((Json.obj fs).get "message") <;> simp [hm]

/-- The detail extraction of the code coincides with the spec-worded
ordered-trials extraction. -/
lemma extractDetail_eq_specDetail (p : Json) : extractDetail p = specDetail p := by
  unfold extractDetail specDetail trialMessage
  by_cases hp : p.truthy = true
  · simp only [hp, if_true]
    cases hm : asString (p.get "message") with
    | none => simp [detailAfterMessage_eq, Option.orElse]
    | some m =>
      by_cases ht : m.jsTrim = ""
      · simp [ht, detailAfterMessage_eq, Option.orElse]
      · simp [ht, Option.orElse]
  · simp [Bool.not_eq_true] at hp
    simp [hp]

/-- Characterization of `requestReply` on a transport failure. -/
lemma requestReply_transport (m : String) (st : WidgetState) :
    requestReply m .transportFailure st =
      ({ history := st.history ++ [{ role := "user", text := m }],
         log := st.log ++ [{ role := "me", meta := false, text := m },
                           { role := "bot", meta := true, text := networkErrorText }],
         inputValue := st.inputValue, inputDisabled := false, sendDisabled := false,
         inputFocused := true, isOpen := st.isOpen },
       st.history ++ [{ role := "user", text := m }]) := by
  simp [requestReply, setPending, setAssistantRow, dropLast_pair]

/-- Characterization of `requestReply` on an unparsable body. -/
lemma requestReply_malformed (m : String) (ok : Bool) (st : WidgetState) :
    requestReply m (.malformedBody ok) st =
      ({ history := st.history ++ [{ role := "user", text := m }],
         log := st.log ++ [{ role := "me", meta := false, text := m },
                           { role := "bot", meta := true, text := invalidResponseText }],
         inputValue := st.inputValue, inputDisabled := false, sendDisabled := false,
         inputFocused := true, isOpen := st.isOpen },
       st.history ++ [{ role := "user", text := m }]) := by
  simp [requestReply, setPending, setAssistantRow, dropLast_pair]

/-- Characterization of `requestReply` on a parsed application failure. -/
lemma requestReply_parsed_fail (m : String) (ok : Bool) (payload : Json) (st : WidgetState)
    (h : (!ok || !payload.truthy || (asString (payload.get "text")).isNone) = true) :
    requestReply m (.parsed ok payload) st =
      ({ history := st.history ++ [{ role := "user", text := m }],
         log := st.log ++ [{ role := "me", meta := false, text := m },
                           { role := "bot", meta := true,
                             text := "Could not get a reply" ++ extractDetail payload ++ "." }],
         inputValue := st.inputValue, inputDisabled := false, sendDisabled := false,
         inputFocused := true, isOpen := st.isOpen },
       st.history ++ [{ role := "user", text := m }]) := by
  simp [requestReply, setPending, setAssistantRow, dropLast_pair, h]

/-- Characterization of `requestReply` on a full success. -/
lemma requestReply_parsed_success (m : String) (payload : Json) (t : String) (st : WidgetState)
    (h : payload.get "text" = some (Json.str t)) :
    requestReply m (.parsed true payload) st =
      ({ history := st.history ++ [{ role := "user", text := m },
                                   { role := "assistant", text := displayOf t }],
         log := st.log ++ [{ role := "me", meta := false, text := m },
                           { role := "bot", meta := false, text := displayOf t }],
         inputValue := st.inputValue, inputDisabled := false, sendDisabled := false,
         inputFocused := true, isOpen := st.isOpen },
       st.history ++ [{ role := "user", text := m }]) := by
  have htr : payload.truthy = true := truthy_of_get_some payload "text" (Json.str t) h
  simp [requestReply, setPending, setAssistantRow, dropLast_pair, h, htr, asString, displayOf]

/-- The map `assistantTexts` distributes over append. -/
lemma assistantTexts_append (a b : List Turn) :
    assistantTexts (a ++ b) = assistantTexts a ++ assistantTexts b := by
  simp [assistantTexts]

/-- The map `botDisplayTexts` distributes over append. -/
lemma botDisplayTexts_append (a b : List Row) :
    botDisplayTexts (a ++ b) = botDisplayTexts a ++ botDisplayTexts b := by
  simp [botDisplayTexts]

lemma assistantTexts_user (m : String) :
    assistantTexts [{ role := "user", text := m }] = [] := rfl

lemma assistantTexts_user_assistant (m d : String) :
    assistantTexts [{ role := "user", text := m }, { role := "assistant", text := d }] = [d] := rfl

lemma botDisplayTexts_me_meta (m : String) (txt : String) :
    botDisplayTexts [{ role := "me", meta := false, text := m },
                     { role := "bot", meta := true, text := txt }] = [] := rfl

lemma botDisplayTexts_me_bot (m : String) (txt : String) :
    botDisplayTexts [{ role := "me", meta := false, text := m },
                     { role := "bot", meta := false, text := txt }] = [txt] := rfl

/-- The displayed reply of a success is never the empty string. -/
lemma displayOf_ne_empty (t : String) : displayOf t ≠ "" := by
  unfold displayOf
  by_cases h : t.jsTrim = "" <;> simp [h, fallbackReplyText]

/-- Clicking the toggle touches neither the history nor the log. -/
lemma toggleClick_history_log (st : WidgetState) :
    (toggleClick st).history = st.history ∧ (toggleClick st).log = st.log := by
  unfold toggleClick
  by_cases h : st.isOpen <;> simp [h]

lemma asString_eq_some (x : Option Json) (t : String) (h : asString x = some t) :
    x = some (Json.str t) := by
  cases x with
  | none => simp [asString] at h
  | some j =>
    cases j <;> simp [asString] at h
    rw [h]

/-- Unpacking a false failure condition: the status was ok and the payload
carried a string text field. -/
lemma parsed_success_shape (ok : Bool) (payload : Json)
    (hc : ¬ ((!ok || !payload.truthy || (asString (payload.get "text")).isNone) = true)) :
    ok = true ∧ ∃ t, payload.get "text" = some (Json.str t) := by
  rw [Bool.or_eq_true, Bool.or_eq_true, not_or, not_or] at hc
  obtain ⟨⟨h1, _h2⟩, h3⟩ := hc
  refine ⟨?_, ?_⟩
  · cases ok
    · exact absurd rfl h1
    · rfl
  · cases hOpt : asString (payload.get "text") with
    | none => exact absurd (by rw [hOpt]; rfl) h3
    | some t => exact ⟨t, asString_eq_some _ t hOpt⟩

/-- Either the submit guard rejects, or the handler runs `requestReply` on
the trimmed input with the field cleared. -/
lemma onSubmit_shape (o : Outcome) (st : WidgetState) :
    ((st.inputValue.jsTrim = "" ∨ st.sendDisabled = true) ∧
      (onSubmit o st).1 = st ∧ (onSubmit o st).2 = none) ∨
    (¬ (st.inputValue.jsTrim = "" ∨ st.sendDisabled = true) ∧
      (onSubmit o st).1 = (requestReply st.inputValue.jsTrim o { st with inputValue := "" }).1 ∧
      (onSubmit o st).2 = some (requestReply st.inputValue.jsTrim o { st with inputValue := "" }).2) := by
  by_cases hg : st.inputValue.jsTrim = "" ∨ st.sendDisabled = true
  · left; exact ⟨hg, by simp [onSubmit, hg], by simp [onSubmit, hg]⟩
  · right; exact ⟨hg, by simp [onSubmit, hg], by simp [onSubmit, hg]⟩

/-- Every run of `requestReply` extends the history with the user turn, and
on success additionally with a non-empty assistant turn. -/
lemma requestReply_history_shape (m : String) (o : Outcome) (st : WidgetState) :
    (requestReply m o st).1.history = st.history ++ [{ role := "user", text := m }] ∨
    ∃ d, d ≠ "" ∧ (requestReply m o st).1.history =
      st.history ++ [{ role := "user", text := m }, { role := "assistant", text := d }] := by
  cases o with
  | transportFailure => left; rw [requestReply_transport]
  | malformedBody ok => left; rw [requestReply_malformed]
  | parsed ok payload =>
    by_cases hc : (!ok || !payload.truthy || (asString (payload.get "text")).isNone) = true
    · left; rw [requestReply_parsed_fail m ok payload st hc]
    · obtain ⟨hok, t, hget⟩ := parsed_success_shape ok payload hc
      subst hok
      right
      exact ⟨displayOf t, displayOf_ne_empty t, by rw [requestReply_parsed_success m payload t st hget]⟩

/-- How one exchange transforms the assistant texts of the history and the
displayed (non-meta) bot texts of the log: a failure leaves both unchanged,
a success appends the same non-empty text to both. -/
lemma requestReply_texts (m : String) (o : Outcome) (st : WidgetState) :
    (assistantTexts (requestReply m o st).1.history = assistantTexts st.history ∧
     botDisplayTexts (requestReply m o st).1.log = botDisplayTexts st.log) ∨
    (∃ d, d ≠ "" ∧
      assistantTexts (requestReply m o st).1.history = assistantTexts st.history ++ [d] ∧
      botDisplayTexts (requestReply m o st).1.log = botDisplayTexts st.log ++ [d]) := by
  cases o with
  | transportFailure =>
    left
    rw [requestReply_transport]
    exact ⟨by simp [assistantTexts_append, assistantTexts_user],
           by simp [botDisplayTexts_append, botDisplayTexts_me_meta]⟩
  | malformedBody ok =>
    left
    rw [requestReply_malformed]
    exact ⟨by simp [assistantTexts_append, assistantTexts_user],
           by simp [botDisplayTexts_append, botDisplayTexts_me_meta]⟩
  | parsed ok payload =>
    by_cases hc : (!ok || !payload.truthy || (asString (payload.get "text")).isNone) = true
    · left
      rw [requestReply_parsed_fail m ok payload st hc]
      exact ⟨by simp [assistantTexts_append, assistantTexts_user],
             by simp [botDisplayTexts_append, botDisplayTexts_me_meta]⟩
    · obtain ⟨hok, t, hget⟩ := parsed_success_shape ok payload hc
      subst hok
      right
      refine ⟨displayOf t, displayOf_ne_empty t, ?_, ?_⟩
      · rw [requestReply_parsed_success m payload t st hget]
        simp [assistantTexts_append, assistantTexts_user_assistant]
      · rw [requestReply_parsed_success m payload t st hget]
        simp [botDisplayTexts_append, botDisplayTexts_me_bot]

/-- The history serialized into the request body is always the caller's
history extended by the new user turn. -/
lemma requestReply_sent (m : String) (o : Outcome) (st : WidgetState) :
    (requestReply m o st).2 = st.history ++ [{ role := "user", text := m }] := by
  cases o with
  | transportFailure => rw [requestReply_transport]
  | malformedBody ok => rw [requestReply_malformed]
  | parsed ok payload =>
    by_cases hc : (!ok || !payload.truthy || (asString (payload.get "text")).isNone) = true
    · rw [requestReply_parsed_fail m ok payload st hc]
    · obtain ⟨hok, t, hget⟩ := parsed_success_shape ok payload hc
      subst hok
      rw [requestReply_parsed_success m payload t st hget]

/-- A submit that passes the guard extends the history by turns whose roles
are user or assistant only. -/
lemma onSubmit_history_extends (o : Outcome) (st : WidgetState) :
    ∃ tail, ((onSubmit o st).1).history = st.history ++ tail ∧
      ∀ t ∈ tail, t.role = "user" ∨ t.role = "assistant" := by
  rcases onSubmit_shape o st with ⟨_, h1, _⟩ | ⟨_, h1, _⟩
  · refine ⟨[], ?_, ?_⟩
    · rw [h1, List.append_nil]
    · intro t ht
      exact absurd ht (List.not_mem_nil t)
  · rw [h1]
    rcases requestReply_history_shape st.inputValue.jsTrim o { st with inputValue := "" } with hh | ⟨d, _, hh⟩
    · refine ⟨[{ role := "user", text := st.inputValue.jsTrim }], hh, ?_⟩
      intro t ht
      rw [List.mem_singleton] at ht
      subst ht
      left; rfl
    · refine ⟨[{ role := "user", text := st.inputValue.jsTrim },
               { role := "assistant", text := d }], hh, ?_⟩
      intro t ht
      simp only [List.mem_cons, List.mem_singleton, List.not_mem_nil, or_false] at ht
      rcases ht with rfl | rfl
      · left; rfl
      · right; rfl

/-! ## Claims -/

/-- C2: with a non-ok status, the error payload `{error: "rate_limited"}`
displays exactly "Could not get a reply (rate_limited)." and history grows
by exactly one entry (the user turn); the payload
`{details: {error: {message: "bad token"}}}` displays exactly
"Could not get a reply (bad token).". -/
theorem error_payload_examples :
    (lastRowText (requestReply "hi"
        (Outcome.parsed false (Json.obj [("error", Json.str "rate_limited")])) initState).1 =
      some "Could not get a reply (rate_limited)." ∧
     ((requestReply "hi"
        (Outcome.parsed false (Json.obj [("error", Json.str "rate_limited")])) initState).1).history =
      initState.history ++ [{ role := "user", text := "hi" }] ∧
     ((requestReply "hi"
        (Outcome.parsed false (Json.obj [("error", Json.str "rate_limited")])) initState).1).history.length =
      initState.history.length + 1) ∧
    lastRowText (requestReply "hi"
        (Outcome.parsed false (Json.obj [("details",
          Json.obj [("error", Json.obj [("message", Json.str "bad token")])])])) initState).1 =
      some "Could not get a reply (bad token)." :=
  ⟨⟨rfl, rfl, rfl⟩, rfl⟩

/-- C9: a body that parses to JSON null is not treated as malformed; it takes
the application-failure path, showing exactly "Could not get a reply." with
no detail suffix and appending nothing beyond the user turn. -/
theorem null_payload_failure_path :
    lastRowText (requestReply "hi" (Outcome.parsed true Json.null) initState).1 =
      some "Could not get a reply." ∧
    lastRowText (requestReply "hi" (Outcome.parsed true Json.null) initState).1 ≠
      some invalidResponseText ∧
    lastRowMeta (requestReply "hi" (Outcome.parsed true Json.null) initState).1 = some true ∧
    ((requestReply "hi" (Outcome.parsed true Json.null) initState).1).history =
      initState.history ++ [{ role := "user", text := "hi" }] :=
  ⟨rfl, by decide, rfl, rfl⟩

/-- C5: a transport failure leaves only the user turn in history (+1 length)
and turns the placeholder row into a meta row reading exactly
"Network error. Please try again.". -/
theorem transport_failure_behavior (m : String) (st : WidgetState) :
    ((requestReply m Outcome.transportFailure st).1).history =
      st.history ++ [{ role := "user", text := m }] ∧
    ((requestReply m Outcome.transportFailure st).1).history.length = st.history.length + 1 ∧
    lastRowMeta (requestReply m Outcome.transportFailure st).1 = some true ∧
    lastRowText (requestReply m Outcome.transportFailure st).1 =
      some "Network error. Please try again." := by
  refine ⟨?_, ?_, ?_, ?_⟩ <;> rw [requestReply_transport] <;>
    simp [lastRowText, lastRowMeta, getLast?_pair, networkErrorText]

/-- C6: a submit with a blank (all-whitespace) input or while a request is
pending is a no-op: the state, hence history and log, is unchanged and no
request is issued. -/
theorem submit_noop_when_pending_or_blank (outcome : Outcome) (st : WidgetState)
    (h : st.inputValue.jsTrim = "" ∨ st.sendDisabled = true) :
    onSubmit outcome st = (st, none) := by
  rcases h with h | h <;> simp [onSubmit, h]

/-- C6 witness. -/
theorem submit_noop_when_pending_or_blank_witness :
    (initState.inputValue.jsTrim = "" ∨ initState.sendDisabled = true) ∧
    onSubmit Outcome.transportFailure initState = (initState, none) :=
  ⟨Or.inl rfl,
   submit_noop_when_pending_or_blank Outcome.transportFailure initState (Or.inl rfl)⟩

/-- C7: whatever the outcome, after the exchange `pending` is false and the
input control is enabled and focused. -/
theorem exchange_clears_pending_and_focuses (m : String) (o : Outcome) (st : WidgetState) :
    ((requestReply m o st).1).pending = false ∧
    ((requestReply m o st).1).inputDisabled = false ∧
    ((requestReply m o st).1).inputFocused = true := by
  cases o with
  | transportFailure => rw [requestReply_transport]; exact ⟨rfl, rfl, rfl⟩
  | malformedBody ok => rw [requestReply_malformed]; exact ⟨rfl, rfl, rfl⟩
  | parsed ok payload =>
    by_cases hc : (!ok || !payload.truthy || (asString (payload.get "text")).isNone) = true
    · rw [requestReply_parsed_fail m ok payload st hc]; exact ⟨rfl, rfl, rfl⟩
    · obtain ⟨hok, t, hget⟩ := parsed_success_shape ok payload hc
      subst hok
      rw [requestReply_parsed_success m payload t st hget]; exact ⟨rfl, rfl, rfl⟩

/-- C3: a submit whose trimmed input is non-empty, made while no request is
pending, issues a request whose history payload is the previous history
extended by exactly the one new user turn — so the payload ends with it. -/
theorem submit_appends_user_before_request (outcome : Outcome) (st : WidgetState)
    (h1 : st.inputValue.jsTrim ≠ "") (h2 : st.sendDisabled = false) :
    (onSubmit outcome st).2 =
      some (st.history ++ [{ role := "user", text := st.inputValue.jsTrim }]) := by
  have hg : ¬ (st.inputValue.jsTrim = "" ∨ st.sendDisabled = true) := by
    rintro (hc | hc)
    · exact h1 hc
    · rw [h2] at hc; exact Bool.false_ne_true hc
  rcases onSubmit_shape outcome st with ⟨hgg, _⟩ | ⟨_, _, h3⟩
  · exact absurd hgg hg
  · rw [h3, requestReply_sent]

/-- C3 witness. -/
theorem submit_appends_user_before_request_witness :
    ({ initState with inputValue := " hi " } : WidgetState).inputValue.jsTrim ≠ "" ∧
    ({ initState with inputValue := " hi " } : WidgetState).sendDisabled = false ∧
    (onSubmit Outcome.transportFailure { initState with inputValue := " hi " }).2 =
      some (({ initState with inputValue := " hi " } : WidgetState).history ++
        [{ role := "user",
           text := ({ initState with inputValue := " hi " } : WidgetState).inputValue.jsTrim }]) :=
  ⟨by decide, rfl,
   submit_appends_user_before_request Outcome.transportFailure
     { initState with inputValue := " hi " } (by decide) rfl⟩

/-- C4: on a success response whose text field is the string `t`, the row
displays the trimmed text when it is non-empty — or the fixed fallback
phrase when trimming empties it — and history grows by exactly two entries:
the user turn, then an assistant turn carrying exactly the displayed text. -/
theorem success_reply_display_and_history (m : String) (payload : Json) (t : String)
    (st : WidgetState) (h : payload.get "text" = some (Json.str t)) :
    (t.jsTrim ≠ "" →
      lastRowText (requestReply m (Outcome.parsed true payload) st).1 = some t.jsTrim ∧
      ((requestReply m (Outcome.parsed true payload) st).1).history =
        st.history ++ [{ role := "user", text := m },
                       { role := "assistant", text := t.jsTrim }] ∧
      ((requestReply m (Outcome.parsed true payload) st).1).history.length =
        st.history.length + 2) ∧
    (t.jsTrim = "" →
      lastRowText (requestReply m (Outcome.parsed true payload) st).1 =
        some fallbackReplyText ∧
      ((requestReply m (Outcome.parsed true payload) st).1).history =
        st.history ++ [{ role := "user", text := m },
                       { role := "assistant", text := fallbackReplyText }] ∧
      ((requestReply m (Outcome.parsed true payload) st).1).history.length =
        st.history.length + 2) := by
  constructor <;> intro ht <;> rw [requestReply_parsed_success m payload t st h] <;>
    unfold displayOf <;> simp [ht, lastRowText, getLast?_pair]

/-- C4 witness. -/
theorem success_reply_display_and_history_witness :
    ((Json.obj [("text", Json.str "  Hello!  ")]).get "text" =
      some (Json.str "  Hello!  ")) ∧
    lastRowText (requestReply "hi"
        (Outcome.parsed true (Json.obj [("text", Json.str "  Hello!  ")])) initState).1 =
      some "Hello!" :=
  ⟨rfl,
   ((success_reply_display_and_history "hi" (Json.obj [("text", Json.str "  Hello!  ")])
       "  Hello!  " initState rfl).1 (by decide)).1⟩

/-- C1 counterexample payload: a truthy non-string `error` field next to an
extractable `details.error` string. -/
def c1CexPayload : Json :=
  Json.obj [("error", Json.obj [("code", Json.num 1)]),
            ("details", Json.obj [("error", Json.str "boom")])]

/-- C1 counterexample: with a non-ok status and `c1CexPayload`, the claim
predicts the suffix "(boom)" extracted from `details.error`, but the code
skips that branch because `error` is truthy, and shows no suffix at all. -/
theorem failure_detail_skips_details_cex :
    lastRowText (requestReply "hi" (Outcome.parsed false c1CexPayload) initState).1 =
      some "Could not get a reply." ∧
    lastRowText (requestReply "hi" (Outcome.parsed false c1CexPayload) initState).1 ≠
      some "Could not get a reply (boom)." :=
  ⟨rfl, by decide⟩

/-- C1 (amended): on a parsed response with an error status or without a
string text field, the row shows "Could not get a reply", a detail suffix
obtained by ordered trials — message (string with non-empty trim, used
trimmed), else, when `error` is truthy, its value only if it is a string
(never falling through), else `details.error` — and a final period; the row
is marked meta. -/
theorem failure_detail_extraction (m : String) (ok : Bool) (payload : Json)
    (st : WidgetState)
    (h : ok = false ∨ payload.truthy = false ∨ asString (payload.get "text") = none) :
    lastRowText (requestReply m (Outcome.parsed ok payload) st).1 =
      some ("Could not get a reply" ++ specDetail payload ++ ".") ∧
    lastRowMeta (requestReply m (Outcome.parsed ok payload) st).1 = some true := by
  have hc : (!ok || !payload.truthy || (asString (payload.get "text")).isNone) = true := by
    rcases h with h | h | h <;> rw [h] <;> simp
  rw [requestReply_parsed_fail m ok payload st hc]
  constructor <;> simp [lastRowText, lastRowMeta, getLast?_pair, extractDetail_eq_specDetail]

/-- C1 witness. -/
theorem failure_detail_extraction_witness :
    (false = false ∨ (Json.obj [("error", Json.str "x")]).truthy = false ∨
      asString ((Json.obj [("error", Json.str "x")]).get "text") = none) ∧
    (lastRowText (requestReply "hi"
        (Outcome.parsed false (Json.obj [("error", Json.str "x")])) initState).1 =
      some ("Could not get a reply" ++ specDetail (Json.obj [("error", Json.str "x")]) ++ ".") ∧
     lastRowMeta (requestReply "hi"
        (Outcome.parsed false (Json.obj [("error", Json.str "x")])) initState).1 = some true) :=
  ⟨Or.inl rfl,
   failure_detail_extraction "hi" false (Json.obj [("error", Json.str "x")]) initState
     (Or.inl rfl)⟩

/-- C8: history is append-only — a submit only ever appends turns and a
toggle never touches history — and in every reachable state the first entry
is the fixed system turn while every entry carries one of the three roles. -/
theorem history_append_only_invariant :
    (∀ (o : Outcome) (st : WidgetState),
        ∃ tail, ((onSubmit o st).1).history = st.history ++ tail) ∧
    (∀ st : WidgetState, (toggleClick st).history = st.history) ∧
    (∀ st : WidgetState, Reachable st →
        st.history.head? = some systemTurn ∧
        ∀ t ∈ st.history, t.role = "system" ∨ t.role = "user" ∨ t.role = "assistant") := by
  refine ⟨?_, ?_, ?_⟩
  · intro o st
    obtain ⟨tail, htail, _⟩ := onSubmit_history_extends o st
    exact ⟨tail, htail⟩
  · intro st
    exact (toggleClick_history_log st).1
  · intro st h
    induction h with
    | init =>
      refine ⟨rfl, ?_⟩
      intro t ht
      rw [show initState.history = [systemTurn] from rfl, List.mem_singleton] at ht
      subst ht
      left; rfl
    | submit o st' hst ih =>
      obtain ⟨hd, roles⟩ := ih
      obtain ⟨tail, htail, hroles⟩ := onSubmit_history_extends o st'
      refine ⟨?_, ?_⟩
      · rw [htail]
        cases hcase : st'.history with
        | nil => rw [hcase] at hd; exact absurd hd (by simp)
        | cons a l =>
          rw [hcase] at hd
          have ha : a = systemTurn := by simpa using hd
          rw [List.cons_append]
          simp [ha]
      · intro t ht
        rw [htail] at ht
        rcases List.mem_append.mp ht with hmem | hmem
        · exact roles t hmem
        · rcases hroles t hmem with hr | hr
          · right; left; exact hr
          · right; right; exact hr
    | toggle st' hst ih =>
      rw [(toggleClick_history_log st').1]
      exact ih

/-- C8 witness. -/
theorem history_append_only_invariant_witness :
    (∃ tail, ((onSubmit Outcome.transportFailure initState).1).history =
      initState.history ++ tail) ∧
    (toggleClick initState).history = initState.history ∧
    (initState.history.head? = some systemTurn ∧
      ∀ t ∈ initState.history,
        t.role = "system" ∨ t.role = "user" ∨ t.role = "assistant") :=
  ⟨history_append_only_invariant.1 Outcome.transportFailure initState,
   history_append_only_invariant.2.1 initState,
   history_append_only_invariant.2.2 initState Reachable.init⟩

/-- C10: in every reachable state the assistant turns of the history match,
in order and text, the non-meta bot rows displayed in the log, and none of
those texts is empty — the only append site substitutes the fallback phrase
before pushing exactly the displayed text. -/
theorem assistant_history_matches_display (st : WidgetState) (h : Reachable st) :
    assistantTexts st.history = botDisplayTexts st.log ∧
    ∀ s ∈ assistantTexts st.history, s ≠ "" := by
  induction h with
  | init =>
    refine ⟨rfl, ?_⟩
    intro s hs
    rw [show assistantTexts initState.history = [] from rfl] at hs
    exact absurd hs (List.not_mem_nil s)
  | submit o st' hst ih =>
    obtain ⟨iheq, ihne⟩ := ih
    rcases onSubmit_shape o st' with ⟨_, h1, _⟩ | ⟨_, h1, _⟩
    · rw [h1]
      exact ⟨iheq, ihne⟩
    · rw [h1]
      rcases requestReply_texts st'.inputValue.jsTrim o { st' with inputValue := "" } with
        ⟨e1, e2⟩ | ⟨d, hdne, e1, e2⟩
      · refine ⟨?_, ?_⟩
        · rw [e1, e2]; exact iheq
        · intro s hs
          rw [e1] at hs
          exact ihne s hs
      · refine ⟨?_, ?_⟩
        · rw [e1, e2]
          rw [show assistantTexts ({ st' with inputValue := "" } : WidgetState).history =
                assistantTexts st'.history from rfl,
              show botDisplayTexts ({ st' with inputValue := "" } : WidgetState).log =
                botDisplayTexts st'.log from rfl, iheq]
        · intro s hs
          rw [e1] at hs
          rcases List.mem_append.mp hs with hmem | hmem
          · exact ihne s hmem
          · rw [List.mem_singleton] at hmem
            subst hmem
            exact hdne
  | toggle st' hst ih =>
    rw [(toggleClick_history_log st').1, (toggleClick_history_log st').2]
    exact ih

/-- C10 witness. -/
theorem assistant_history_matches_display_witness :
    assistantTexts initState.history = botDisplayTexts initState.log ∧
    ∀ s ∈ assistantTexts initState.history, s ≠ "" :=
  assistant_history_matches_display initState Reachable.init
